import Mathlib

/-!
Verification development for the chromewhip correlation engine
(`chromewhip/chrome.py`, class `ChromeTab`).

The model below is a shallow embedding of `ChromeTab.recv_handler` and
`ChromeTab._send`.  The tab's mutable dictionaries become function-valued
fields of `TabState`; `asyncio.Event` objects become `Option Bool` entries
(`some false` = registered but not set, `some true` = set, `none` = absent);
each `await asyncio.wait_for(...)` becomes an `AwaitStep` that records the
frames the receive loop processes while the sender is suspended and the
elapsed time of the await.  Python exceptions become the `PyExn` type and
fallible code returns values paired with `Option PyExn` or `Except PyExn`.

The event hashing helpers (`BaseEvent.hash_`, `build_hash`, `is_hashable`)
live in `chromewhip/helpers.py`, which is not part of the sources here;
they are modelled from the spec where noted.
-/

/-- `TIMEOUT_S = 25` from `chrome.py`. -/
def TIMEOUT_S : Nat := 25

/-- Python exceptions that the modelled code can raise, one constructor per
exception class appearing in (or reachable from) `ChromeTab._send` and
`ChromeTab.recv_handler`. -/
inductive PyExn where
  | valueError (msg : String)
  | protocolError (msg : String)
  | typeError (msg : String)
  | timeoutError (msg : String)
  | keyError (msg : String)
  | jsonDecodeError
  | attributeError
  | indexError
deriving DecidableEq, Repr

/-- The Python class of an exception, forgetting the message. -/
inductive ExnClass where
  | valueError
  | protocolError
  | typeError
  | timeoutError
  | keyError
  | jsonDecodeError
  | attributeError
  | indexError
deriving DecidableEq, Repr

def exnClass : PyExn → ExnClass
  | .valueError _ => .valueError
  | .protocolError _ => .protocolError
  | .typeError _ => .typeError
  | .timeoutError _ => .timeoutError
  | .keyError _ => .keyError
  | .jsonDecodeError => .jsonDecodeError
  | .attributeError => .attributeError
  | .indexError => .indexError

/-- Splits a list of characters at every occurrence of `c`
(Python `str.split(sep)` semantics for a one-character separator). -/
def splitCharAux (c : Char) : List Char → List Char → List (List Char)
  | [], acc => [acc.reverse]
  | x :: xs, acc =>
    if x = c then acc.reverse :: splitCharAux c xs []
    else splitCharAux c xs (x :: acc)

/-- Python `s.split(c)` for a one-character separator `c`. -/
def pySplit (c : Char) (s : String) : List String :=
  (splitCharAux c s.data []).map fun cs => String.mk cs

/-- `k=v` rendering of one hashable field. -/
def renderField (kv : String × String) : String := kv.1 ++ "=" ++ kv.2

/-- Joins rendered fields with the `,` separator. -/
def joinComma : List String → String
  | [] => ""
  | [x] => x
  | x :: y :: ys => x ++ "," ++ joinComma (y :: ys)

/-- Inserts a field into a list sorted by field name. -/
def insertByKey (kv : String × String) :
    List (String × String) → List (String × String)
  | [] => [kv]
  | y :: ys => if kv.1 < y.1 then kv :: y :: ys else y :: insertByKey kv ys

/-- Insertion sort of fields by field name, as the spec requires the
hashable fields to be sorted before concatenation. -/
def sortByKey : List (String × String) → List (String × String)
  | [] => []
  | kv :: rest => insertByKey kv (sortByKey rest)

/-- Modelled from the spec (§4.2 Event Hasher; `chromewhip/helpers.py` is not
among the sources): the hash string is the event name plus a `:` separator
plus the `key=value` renderings of the given fields joined by `,`. -/
def hashOf (name : String) (fields : List (String × String)) : String :=
  name ++ ":" ++ joinComma (fields.map renderField)

/-- An event class descriptor: its protocol method name (`js_name`) and the
names of its hashable fields (`hashable`); `is_hashable` is
`hashable ≠ []`.  Mirrors the per-event-class attributes used by
`ChromeTab._send` and `ChromeTab.recv_handler`. -/
structure EventCls where
  js_name : String
  hashable : List String
deriving DecidableEq, Repr

/-- An Event Frame after `helpers.json_to_event`: the event name, its
parameter fields (rendered as strings, as hashing compares rendered
values), and its class's hashable field names. -/
structure CWEvent where
  js_name : String
  params : List (String × String)
  hashable : List String
deriving DecidableEq, Repr

/-- Modelled from the spec (§4.2; `helpers.BaseEvent.hash_` is not among the
sources): the event hash is built from the event's name and its hashable
fields, sorted by field name. -/
def hash_ (e : CWEvent) : String :=
  hashOf e.js_name (sortByKey (e.params.filter fun kv => e.hashable.contains kv.1))

/-- Modelled from the spec (§4.2; `helpers` `build_hash` is not among the
sources): building a hash from keyword arguments fails with `TypeError`
when a declared hashable field is missing, as a Python call with missing
required keyword arguments does. -/
def build_hash (cls : EventCls) (kwargs : List (String × String)) :
    Except PyExn String :=
  if cls.hashable.all (fun k => kwargs.any fun kv => kv.1 == k) then
    Except.ok (hashOf cls.js_name
      (sortByKey (kwargs.filter fun kv => cls.hashable.contains kv.1)))
  else
    Except.error (PyExn.typeError "missing a required keyword-only argument")

/-- An inbound ack payload: the raw reply dict `{id, result|error}`.
`error` is the `(code, message)` pair of the remote error dict. -/
structure AckPayload where
  id_ : Nat
  error : Option (Int × String)
  result : Option (List (String × String))
deriving DecidableEq, Repr

/-- A value sitting in the tab's `_event_callbacks` mapping, or produced by
iterating over that mapping.  Iterating a Python dict yields its keys
(strings); calling a string raises `TypeError`. -/
inductive PyCallable where
  | str (s : String)
  | func (f : CWEvent → Option PyExn)

/-- Calling a Python value: a string is not callable; a function may itself
raise. -/
def callPy : PyCallable → CWEvent → Option PyExn
  | .str _, _ => some (PyExn.typeError "str object is not callable")
  | .func f, e => f e

/-- Runs calls in order, stopping at the first raised exception. -/
def callEach : List PyCallable → CWEvent → Option PyExn
  | [], _ => none
  | c :: rest, e =>
    match callPy c e with
    | some ex => some ex
    | none => callEach rest e

/-- Lines 129-132 of `chrome.py`:
`if result['method'] in self._event_callbacks: for callback in
self._event_callbacks: callback(event)`.  The membership test is over the
dict's keys, and the `for` loop iterates the dict, which yields its keys,
each of which is then called. -/
def runEventCallbacks (cbs : List (String × List PyCallable))
    (method : String) (e : CWEvent) : Option PyExn :=
  if cbs.any (fun kv => kv.1 == method) then
    callEach (cbs.map fun kv => PyCallable.str kv.1) e
  else none

/-- One inbound websocket message as seen by `recv_handler`:
`undecodable` = `json.loads` raises; `empty` = falsy message (line 93);
`nonMapping` = decodes but is not a dict (line 98); `ack` = carries `id`;
`event` = carries `method`; `malformed` = a dict with neither. -/
inductive Frame where
  | undecodable
  | empty
  | nonMapping
  | ack (p : AckPayload)
  | event (e : CWEvent)
  | malformed
deriving Repr

/-- The mutable state of one `ChromeTab` relevant to `_send` and
`recv_handler`.  Asyncio events are `Option Bool` (registered?/set?). -/
structure TabState where
  message_id : Nat
  ack_events : Nat → Option Bool
  ack_payloads : Nat → Option AckPayload
  input_events : String → Option Bool
  trigger_events : String → Option Bool
  event_payloads : String → Option CWEvent
  event_callbacks : List (String × List PyCallable)

/-- Pointwise update of a finite map modelled as a function. -/
def upd {α β : Type} [DecidableEq α] (f : α → Option β) (k : α) (v : Option β) :
    α → Option β :=
  fun x => if x = k then v else f x

/-- The state of a fresh `ChromeTab.__init__`: id counter 0, empty tables. -/
def initTab : TabState where
  message_id := 0
  ack_events := fun _ => none
  ack_payloads := fun _ => none
  input_events := fun _ => none
  trigger_events := fun _ => none
  event_payloads := fun _ => none
  event_callbacks := []

/-- One iteration of `ChromeTab.recv_handler` (lines 88-135) on one inbound
frame.  Returns the mutated state and, when the handling raised, the
exception (which is not caught inside the loop and therefore terminates
the receive task). -/
def processFrame (s : TabState) : Frame → TabState × Option PyExn
  | .undecodable => (s, some PyExn.jsonDecodeError)
  | .empty => (s, none)
  | .nonMapping => (s, none)
  | .malformed => (s, none)
  | .ack p =>
    let s1 := { s with ack_payloads := upd s.ack_payloads p.id_ (some p) }
    match s1.ack_events p.id_ with
    | none => (s1, none)
    | some _ =>
      ({ s1 with ack_events := upd s1.ack_events p.id_ (some true) }, none)
  | .event e =>
    let h := hash_ e
    let s1 := { s with
      event_payloads := upd (upd s.event_payloads h (some e)) e.js_name (some e) }
    let s2 :=
      match s1.input_events e.js_name with
      | some _ => { s1 with input_events := upd s1.input_events e.js_name (some true) }
      | none => s1
    let s3 :=
      match s2.trigger_events h with
      | some _ => { s2 with trigger_events := upd s2.trigger_events h (some true) }
      | none => s2
    (s3, runEventCallbacks s3.event_callbacks e.js_name e)

/-- Runs the receive loop over a list of inbound frames, stopping at the
first uncaught exception (which terminates the loop). -/
def runFrames (s : TabState) : List Frame → TabState × Option PyExn
  | [] => (s, none)
  | f :: rest =>
    match processFrame s f with
    | (s', none) => runFrames s' rest
    | (s', some ex) => (s', some ex)

/-- The await points of `_send`, in source order: the `ws.send`, the ack
event wait, the input event wait, the trigger event wait. -/
inductive AwaitPt where
  | send
  | ack
  | input
  | trigger
deriving DecidableEq, Repr

/-- What happens while `_send` is suspended at one await: the frames the
receive loop processes during the suspension and the elapsed time of the
await.  `asyncio.wait_for(w, TIMEOUT_S)` succeeds iff the awaited
condition is established by those frames and `t ≤ TIMEOUT_S`. -/
structure AwaitStep where
  frames : List Frame
  t : Nat

/-- Channel state sampled by the `except asyncio.TimeoutError` handler:
`websockets.protocol.OPEN` or closed with a close code. -/
inductive WsState where
  | opened
  | closed (code : Nat)
deriving DecidableEq, Repr

/-- The environment of one `_send` call: one `AwaitStep` per await point,
plus the channel state the timeout handler would observe. -/
structure SendSched where
  sendStep : AwaitStep
  ackStep : AwaitStep
  inputStep : AwaitStep
  triggerStep : AwaitStep
  ws : WsState

/-- The dict `result = {'ack': ..., 'event': ...}` that `_send` returns. -/
structure SendResult where
  ack : Option AckPayload
  event : Option CWEvent
deriving DecidableEq, Repr

/-- Outcome of one `_send` call: the tab state after the call (mutations
persist also when the call raises), the awaits the call actually
performed, in order, and the returned value or raised exception. -/
structure SendOut where
  state : TabState
  awaits : List AwaitPt
  result : Except PyExn SendResult

/-- The optional `recv_validator` argument of `_send`. -/
abbrev Validator :=
  Option (List (String × String) → Except PyExn (List (String × String)))

/-- Lines 252-266 of `chrome.py`: the `except asyncio.TimeoutError` handler.
Close codes 1002/1006/1007/1009 each raise `ProtocolError` (with distinct
messages); an open channel or any other close code raises `TimeoutError`. -/
def timeoutHandler (method : String) (id_ : Nat) (ws : WsState) : PyExn :=
  match ws with
  | .opened =>
    PyExn.timeoutError
      ("Unknown cause for timeout to occurs for " ++ method ++ " with id=" ++ toString id_)
  | .closed code =>
    if code = 1002 then
      PyExn.protocolError
        ("Websocket protocol error occured for " ++ method ++ " with id=" ++ toString id_)
    else if code = 1006 then
      PyExn.protocolError
        ("Incomplete read error occured for " ++ method ++ " with id=" ++ toString id_)
    else if code = 1007 then
      PyExn.protocolError
        ("Unicode decode error occured for " ++ method ++ " with id=" ++ toString id_)
    else if code = 1009 then
      PyExn.protocolError
        ("Recvd payload exceeded limit for " ++ method ++ " with id=" ++ toString id_)
    else
      PyExn.timeoutError
        ("Unknown cause for timeout to occurs for " ++ method ++ " with id=" ++ toString id_)

/-- Lines 224-227: `params = event.hash_().split(':')[-1].split(',')` and
`kv = p.split('='); hash_input_dict[kv[0]] = kv[1]`.  `kv[1]` raises
`IndexError` when a part carries no `=`. -/
def parseKV (p : String) : Except PyExn (String × String) :=
  match pySplit '=' p with
  | k :: v :: _ => Except.ok (k, v)
  | _ => Except.error PyExn.indexError

def parseKVs : List String → Except PyExn (List (String × String))
  | [] => Except.ok []
  | p :: rest => do
    let kv ← parseKV p
    let r ← parseKVs rest
    Except.ok (kv :: r)

/-- Decomposes an event hash back into its field map (lines 224-227). -/
def decomposeHash (h : String) : Except PyExn (List (String × String)) :=
  parseKVs (pySplit ',' ((pySplit ':' h).getLastD ""))

/-- Lines 161-172 of `_send`: allocate the next command id, register the ack
waiter, and (when an input event class is given) register the input event
waiter before sending. -/
def allocReg (s0 : TabState) (inputCls : Option EventCls) : TabState :=
  let id_ := s0.message_id + 1
  let s1 := { s0 with
    message_id := id_
    ack_events := upd s0.ack_events id_ (some false) }
  match inputCls with
  | some ic => { s1 with input_events := upd s1.input_events ic.js_name (some false) }
  | none => s1

/-- Lines 214-229 of `_send`: derive the `hash_input_dict` either from the
input event (cached, else awaited) or from the ack's `result`. -/
def inputPhase (s : TabState) (m : String) (id_ : Nat)
    (inputCls : Option EventCls) (ack_result : List (String × String))
    (sched : SendSched) :
    TabState × List AwaitPt × Except PyExn (List (String × String)) :=
  match inputCls with
  | none => (s, [], Except.ok ack_result)
  | some ic =>
    match s.event_payloads ic.js_name with
    | some ev =>
      match decomposeHash (hash_ ev) with
      | Except.ok hid => (s, [], Except.ok hid)
      | Except.error ex => (s, [], Except.error ex)
    | none =>
      let s1 := (runFrames s sched.inputStep.frames).1
      if s1.input_events ic.js_name = some true ∧ sched.inputStep.t ≤ TIMEOUT_S then
        match s1.event_payloads ic.js_name with
        | some ev =>
          match decomposeHash (hash_ ev) with
          | Except.ok hid => (s1, [AwaitPt.input], Except.ok hid)
          | Except.error ex => (s1, [AwaitPt.input], Except.error ex)
        | none => (s1, [AwaitPt.input], Except.error PyExn.attributeError)
      else (s1, [AwaitPt.input], Except.error (timeoutHandler m id_ sched.ws))

/-- Lines 231-248 of `_send`: build the trigger hash from the hash input
dict restricted to the trigger class's hashable fields; take the cached
event for that hash if present, else register a trigger waiter and await
it. -/
def triggerPhase (s : TabState) (m : String) (id_ : Nat) (tc : EventCls)
    (hid : List (String × String)) (sched : SendSched) :
    TabState × List AwaitPt × Except PyExn (Option CWEvent) :=
  let cleaned := hid.filter fun kv => tc.hashable.contains kv.1
  match build_hash tc cleaned with
  | Except.error _ =>
    (s, [], Except.error (PyExn.typeError ("Event " ++ tc.js_name ++ " hash cannot be built")))
  | Except.ok h =>
    match s.event_payloads h with
    | some ev => (s, [], Except.ok (some ev))
    | none =>
      let s1 := { s with trigger_events := upd s.trigger_events h (some false) }
      let s2 := (runFrames s1 sched.triggerStep.frames).1
      if s2.trigger_events h = some true ∧ sched.triggerStep.t ≤ TIMEOUT_S then
        (s2, [AwaitPt.trigger], Except.ok (s2.event_payloads h))
      else (s2, [AwaitPt.trigger], Except.error (timeoutHandler m id_ sched.ws))

/-- Line 204-210 of `_send`: apply the optional `recv_validator` to the ack
payload's `result` (the validator itself may raise). -/
def applyValidator (v : Validator) (r0 : List (String × String)) :
    Except PyExn (List (String × String)) :=
  match v with
  | none => Except.ok r0
  | some f => f r0

/-- Lines 206-212 of `_send`: the tab state after
`ack_payload['result'] = ack_result` has replaced the stored payload's
result with the validated one (a no-op when no validator is given). -/
def validatedState (s : TabState) (id_ : Nat) (p : AckPayload)
    (ackRes : List (String × String)) : TabState :=
  { s with ack_payloads := upd s.ack_payloads id_ (some { p with result := some ackRes }) }

/-- Lines 190-251 of `_send`: everything after the ack event wait has been
notified.  `if not ack_payload` is modelled as absence: the receive loop
only ever stores the non-empty reply dict, so the payload is falsy iff it
was never stored. -/
def afterAck (s : TabState) (m : String) (id_ : Nat) (v : Validator)
    (inputCls triggerCls : Option EventCls) (sched : SendSched)
    (tr : List AwaitPt) : SendOut :=
  match s.ack_payloads id_ with
  | none => ⟨s, tr, Except.ok ⟨none, none⟩⟩
  | some p =>
    match p.error with
    | some ce =>
      ⟨s, tr, Except.error (PyExn.protocolError
        (ce.2 ++ ", code " ++ toString ce.1 ++ " for id=" ++ toString id_))⟩
    | none =>
      match p.result with
      | none => ⟨s, tr, Except.error (PyExn.keyError "result")⟩
      | some r0 =>
        match applyValidator v r0 with
        | Except.error ex => ⟨s, tr, Except.error ex⟩
        | Except.ok ackRes =>
          let p2 : AckPayload := { p with result := some ackRes }
          match inputPhase (validatedState s id_ p ackRes) m id_ inputCls ackRes sched with
          | (s2, tr2, Except.error ex) => ⟨s2, tr ++ tr2, Except.error ex⟩
          | (s2, tr2, Except.ok hid) =>
            match triggerCls with
            | none => ⟨s2, tr ++ tr2, Except.ok ⟨some p2, none⟩⟩
            | some tc =>
              match triggerPhase s2 m id_ tc hid sched with
              | (s3, tr3, Except.error ex) => ⟨s3, tr ++ tr2 ++ tr3, Except.error ex⟩
              | (s3, tr3, Except.ok ev) => ⟨s3, tr ++ tr2 ++ tr3, Except.ok ⟨some p2, ev⟩⟩

/-- Lines 180-188 of `_send`: the `try` body up to the ack wait.  The send
await and the ack wait are each bounded by a fresh `TIMEOUT_S`; frames
may be processed by the receive loop during either suspension. -/
def sendTry (s : TabState) (m : String) (id_ : Nat) (v : Validator)
    (inputCls triggerCls : Option EventCls) (sched : SendSched) : SendOut :=
  let sA := (runFrames s sched.sendStep.frames).1
  if sched.sendStep.t ≤ TIMEOUT_S then
    let sB := (runFrames sA sched.ackStep.frames).1
    if sB.ack_events id_ = some true ∧ sched.ackStep.t ≤ TIMEOUT_S then
      afterAck sB m id_ v inputCls triggerCls sched [AwaitPt.send, AwaitPt.ack]
    else ⟨sB, [AwaitPt.send, AwaitPt.ack], Except.error (timeoutHandler m id_ sched.ws)⟩
  else ⟨sA, [AwaitPt.send], Except.error (timeoutHandler m id_ sched.ws)⟩

/-- Lines 174-176 of `_send`: the trigger class hashability check, after
which the `try` body runs. -/
def sendChecked (s : TabState) (m : String) (id_ : Nat) (v : Validator)
    (inputCls triggerCls : Option EventCls) (sched : SendSched) : SendOut :=
  match triggerCls with
  | some tc =>
    if tc.hashable.isEmpty then
      ⟨s, [], Except.error (PyExn.valueError
        ("Trigger event type " ++ tc.js_name ++ " as not hashable"))⟩
    else sendTry s m id_ v inputCls (some tc) sched
  | none => sendTry s m id_ v inputCls none sched

/-- `ChromeTab._send` (lines 151-266): id allocation, waiter registration,
hashability checks, the awaited send/ack/input/trigger pipeline, and the
timeout handler. -/
def sendModel (s0 : TabState) (m : String) (v : Validator)
    (inputCls triggerCls : Option EventCls) (sched : SendSched) : SendOut :=
  let id_ := s0.message_id + 1
  match inputCls with
  | some ic =>
    if ic.hashable.isEmpty then
      ⟨{ s0 with message_id := id_, ack_events := upd s0.ack_events id_ (some false) },
        [], Except.error (PyExn.valueError
          ("Input event class " ++ ic.js_name ++ " as not hashable"))⟩
    else sendChecked (allocReg s0 (some ic)) m id_ v (some ic) triggerCls sched
  | none => sendChecked (allocReg s0 none) m id_ v none triggerCls sched

/-- The state in which the ack-wait condition is inspected: the registered
state after the frames of the send await and of the ack await. -/
def ackPoint (s0 : TabState) (inputCls : Option EventCls) (sched : SendSched) : TabState :=
  (runFrames (runFrames (allocReg s0 inputCls) sched.sendStep.frames).1
    sched.ackStep.frames).1

/-- One `invoke` call description, for iterating calls on one session. -/
structure CallSpec where
  method : String
  v : Validator
  inputCls : Option EventCls
  triggerCls : Option EventCls
  sched : SendSched

/-- Runs a sequence of `_send` calls on one tab, collecting the command id
assigned to each call (line 161-162: the id is `message_id + 1` of the
state at call start, whatever the call's outcome). -/
def runCalls (s : TabState) : List CallSpec → TabState × List Nat
  | [] => (s, [])
  | c :: rest =>
    let out := sendModel s c.method c.v c.inputCls c.triggerCls c.sched
    let r := runCalls out.state rest
    (r.1, (s.message_id + 1) :: r.2)

def evW : CWEvent := ⟨"Page.loadEventFired", [("ts","1")], ["ts"]⟩
def sW : TabState := { initTab with
  input_events := upd initTab.input_events "Page.loadEventFired" (some false) }
def tcW : EventCls := ⟨"Page.frameStoppedLoading", ["frameId"]⟩
def schedW : SendSched := ⟨⟨[], 0⟩, ⟨[], 0⟩, ⟨[], 0⟩, ⟨[], 0⟩, WsState.opened⟩
def pLate : AckPayload := ⟨1, none, some [("frameId","F1")]⟩
def cbF : PyCallable := PyCallable.func fun _ => none
def sCb : TabState := { initTab with event_callbacks := [("Page.loadEventFired", [cbF])] }
def evCb : CWEvent := ⟨"Page.loadEventFired", [("ts","1")], ["ts"]⟩
/-- The error kinds named by the spec for channel closure (§6). -/
inductive SpecErrKind where
  | protocolError
  | connectionLost
  | messageTooLarge
  | timeout
deriving DecidableEq, Repr

/-- Modelled from the spec: the error-kind mapping the spec asserts for a
close observed while awaiting (protocol violation 1002, abrupt close 1006,
oversize 1009). -/
def specCloseKind (code : Nat) : SpecErrKind :=
  if code = 1002 then SpecErrKind.protocolError
  else if code = 1006 then SpecErrKind.connectionLost
  else if code = 1009 then SpecErrKind.messageTooLarge
  else SpecErrKind.timeout
def schedClosed (code : Nat) : SendSched :=
  ⟨⟨[], 0⟩, ⟨[], 0⟩, ⟨[], 0⟩, ⟨[], 0⟩, WsState.closed code⟩
def tcE : EventCls := ⟨"Page.frameStoppedLoading", ["frameId"]⟩
def eE : CWEvent := ⟨"Page.frameStoppedLoading", [("frameId","F1")], ["frameId"]⟩
def pE : AckPayload := ⟨1, none, some [("frameId","F1")]⟩

def schedC3 : SendSched :=
  ⟨⟨[], 0⟩, ⟨[Frame.ack pE], 20⟩, ⟨[], 0⟩, ⟨[Frame.event eE], 20⟩, WsState.opened⟩
def pErr : AckPayload := ⟨1, some ((-32000 : Int), "Cannot navigate"), none⟩
def schedErr : SendSched :=
  ⟨⟨[], 0⟩, ⟨[Frame.ack pErr], 0⟩, ⟨[], 0⟩, ⟨[], 0⟩, WsState.opened⟩
def schedC1 : SendSched :=
  ⟨⟨[], 0⟩, ⟨[Frame.ack pE], 0⟩, ⟨[], 0⟩, ⟨[Frame.event eE], 5⟩, WsState.opened⟩

-- ===== helper lemmas =====

theorem processFrame_event_payloads_eq (s : TabState) (e : CWEvent) :
    (processFrame s (Frame.event e)).1.event_payloads
      = upd (upd s.event_payloads (hash_ e) (some e)) e.js_name (some e) := by
  simp only [processFrame]
  split <;> split <;> rfl

theorem processFrame_event_input_set (s : TabState) (e : CWEvent) (k : String) :
    (processFrame s (Frame.event e)).1.input_events k = some true →
      s.input_events k = some true ∨ k = e.js_name := by
  simp only [processFrame]
  split <;> split <;> intro hk <;> simp only [upd] at hk <;>
    first
      | (by_cases hke : k = e.js_name
         · exact Or.inr hke
         · simp [hke] at hk; exact Or.inl hk)
      | exact Or.inl hk

theorem processFrame_event_trigger_set (s : TabState) (e : CWEvent) (k : String) :
    (processFrame s (Frame.event e)).1.trigger_events k = some true →
      s.trigger_events k = some true ∨ k = hash_ e := by
  simp only [processFrame]
  split <;> split <;> intro hk <;> simp only [upd] at hk <;>
    first
      | (by_cases hke : k = hash_ e
         · exact Or.inr hke
         · simp [hke] at hk; exact Or.inl hk)
      | exact Or.inl hk

/-- C9: an inbound Event Frame is written into the event cache under both its
computed hash and its event name, and only then are waiters woken: after
`recv_handler` processes the frame, the cache holds the event under both
keys, and any input-event or trigger-event waiter newly set by this frame
finds an Event Frame under its key. -/
theorem event_cached_before_waiters_woken (s : TabState) (e : CWEvent) :
    (processFrame s (Frame.event e)).1.event_payloads (hash_ e) = some e ∧
    (processFrame s (Frame.event e)).1.event_payloads e.js_name = some e ∧
    (∀ k, (processFrame s (Frame.event e)).1.input_events k = some true →
      s.input_events k = some true ∨
        ((processFrame s (Frame.event e)).1.event_payloads k).isSome) ∧
    (∀ k, (processFrame s (Frame.event e)).1.trigger_events k = some true →
      s.trigger_events k = some true ∨
        ((processFrame s (Frame.event e)).1.event_payloads k).isSome) := by
  have hpay := processFrame_event_payloads_eq s e
  have hhash : (processFrame s (Frame.event e)).1.event_payloads (hash_ e) = some e := by
    rw [hpay]; simp only [upd]; split <;> simp
  have hname : (processFrame s (Frame.event e)).1.event_payloads e.js_name = some e := by
    rw [hpay]; simp [upd]
  refine ⟨hhash, hname, ?_, ?_⟩
  · intro k hk
    rcases processFrame_event_input_set s e k hk with h | h
    · exact Or.inl h
    · subst h; exact Or.inr (by rw [hname]; rfl)
  · intro k hk
    rcases processFrame_event_trigger_set s e k hk with h | h
    · exact Or.inl h
    · subst h; exact Or.inr (by rw [hhash]; rfl)


theorem event_cached_before_waiters_woken_witness :
    ((processFrame sW (Frame.event evW)).1.input_events "Page.loadEventFired" = some true) ∧
    (sW.input_events "Page.loadEventFired" = some true ∨
      ((processFrame sW (Frame.event evW)).1.event_payloads "Page.loadEventFired").isSome) :=
  ⟨rfl, (event_cached_before_waiters_woken sW evW).2.2.1 "Page.loadEventFired" rfl⟩

/-- C10: when the ack waiter has been woken but no ack payload is cached for
the command id (`if not ack_payload`, line 192), `_send` returns
`{ack: None, event: None}` as a successful result, performing no further
await, even when input/trigger event classes were supplied. -/
theorem missing_ack_payload_returns_none (s : TabState) (m : String) (id_ : Nat)
    (v : Validator) (inputCls triggerCls : Option EventCls) (sched : SendSched)
    (tr : List AwaitPt) (h : s.ack_payloads id_ = none) :
    afterAck s m id_ v inputCls triggerCls sched tr = ⟨s, tr, Except.ok ⟨none, none⟩⟩ := by
  simp [afterAck, h]


theorem missing_ack_payload_returns_none_witness :
    initTab.ack_payloads 1 = none ∧
    afterAck initTab "Page.navigate" 1 none (some tcW) (some tcW) schedW
        [AwaitPt.send, AwaitPt.ack]
      = ⟨initTab, [AwaitPt.send, AwaitPt.ack], Except.ok ⟨none, none⟩⟩ :=
  ⟨rfl, missing_ack_payload_returns_none initTab "Page.navigate" 1 none (some tcW)
    (some tcW) schedW [AwaitPt.send, AwaitPt.ack] rfl⟩


/-- C2 (code bug): after an invoke call fails with Timeout because no Ack
Frame arrived, the ack waiter for its command id is NOT removed from
`_ack_events` (the code never deletes waiters; the docstring TODO of
`_send` notes the missing cleanup), and a late-arriving ack frame for
that id still has observable effects: it is cached in `_ack_payloads` and
sets the stale waiter event. -/
theorem ack_waiter_survives_timeout :
    (sendModel initTab "Page.navigate" none none none schedW).result
      = Except.error (PyExn.timeoutError
          "Unknown cause for timeout to occurs for Page.navigate with id=1") ∧
    (sendModel initTab "Page.navigate" none none none schedW).state.ack_events 1
      = some false ∧
    (processFrame (sendModel initTab "Page.navigate" none none none schedW).state
        (Frame.ack pLate)).1.ack_events 1 = some true ∧
    (processFrame (sendModel initTab "Page.navigate" none none none schedW).state
        (Frame.ack pLate)).1.ack_payloads 1 = some pLate :=
  ⟨rfl, rfl, rfl, rfl⟩

/-- C6 counterexample: a frame that fails to decode as JSON makes
`json.loads` raise; the exception is not caught inside the receive loop,
so processing such a frame terminates the loop instead of being dropped. -/
theorem undecodable_frame_kills_recv_loop :
    (processFrame initTab Frame.undecodable).2 = some PyExn.jsonDecodeError ∧
    (runFrames initTab [Frame.undecodable, Frame.nonMapping]).2
      = some PyExn.jsonDecodeError :=
  ⟨rfl, rfl⟩

/-- C6 amended: a frame that is empty, decodes to a non-mapping, or is a
mapping with neither `id` nor `method` is logged and dropped and the loop
continues with the next frame; a frame that fails to decode raises and
terminates the receive loop without mutating the state. -/
theorem recv_loop_drops_bad_frames (s : TabState) (rest : List Frame) :
    runFrames s (Frame.empty :: rest) = runFrames s rest ∧
    runFrames s (Frame.nonMapping :: rest) = runFrames s rest ∧
    runFrames s (Frame.malformed :: rest) = runFrames s rest ∧
    (runFrames s (Frame.undecodable :: rest)).1 = s ∧
    (runFrames s (Frame.undecodable :: rest)).2 = some PyExn.jsonDecodeError :=
  ⟨rfl, rfl, rfl, rfl, rfl⟩


/-- C7 (code bug): for an Event Frame whose method has registered subscriber
callbacks, lines 129-132 iterate over the `_event_callbacks` dict itself,
which yields its keys (strings), and call each key instead of the
registered callbacks; the resulting TypeError is not caught and kills the
receive loop, and no registered callback function is ever invoked. -/
theorem event_callbacks_call_dict_keys :
    (processFrame sCb (Frame.event evCb)).2
      = some (PyExn.typeError "str object is not callable") ∧
    ∀ (f : CWEvent → Option PyExn) (name : String) (e : CWEvent),
      runEventCallbacks [(name, [PyCallable.func f])] name e
        = some (PyExn.typeError "str object is not callable") := by
  refine ⟨rfl, ?_⟩
  intro f name e
  simp [runEventCallbacks, callEach, callPy]


/-- C4 counterexample: the spec's error-kind mapping distinguishes the close
codes 1006 (ConnectionLost) and 1009 (MessageTooLarge) from 1002
(ProtocolError), but the code raises the same exception class
`ProtocolError` for 1002, 1006, 1007 and 1009; `ConnectionLost` and
`MessageTooLarge` error classes do not exist in the code. -/
theorem close_code_kinds_conflated :
    specCloseKind 1006 ≠ specCloseKind 1002 ∧
    specCloseKind 1009 ≠ specCloseKind 1002 ∧
    exnClass (timeoutHandler "m" 1 (WsState.closed 1006))
      = exnClass (timeoutHandler "m" 1 (WsState.closed 1002)) ∧
    exnClass (timeoutHandler "m" 1 (WsState.closed 1009))
      = exnClass (timeoutHandler "m" 1 (WsState.closed 1002)) ∧
    exnClass (timeoutHandler "m" 1 (WsState.closed 1002)) = ExnClass.protocolError :=
  ⟨by decide, by decide, rfl, rfl, rfl⟩


/-- C4 amended: when an invoke call times out, close codes 1002, 1006, 1007
and 1009 all map to `ProtocolError` (with messages distinguishing the
causes); an open channel or any other close code maps to `TimeoutError`. -/
theorem close_code_error_mapping (s0 : TabState) (m : String) (code : Nat) :
    (sendModel s0 m none none none (schedClosed code)).result
      = Except.error (timeoutHandler m (s0.message_id + 1) (WsState.closed code)) ∧
    exnClass (timeoutHandler m (s0.message_id + 1) (WsState.closed code))
      = (if code = 1002 ∨ code = 1006 ∨ code = 1007 ∨ code = 1009 then
          ExnClass.protocolError
        else ExnClass.timeoutError) ∧
    exnClass (timeoutHandler m (s0.message_id + 1) WsState.opened)
      = ExnClass.timeoutError := by
  refine ⟨?_, ?_, rfl⟩
  · simp [sendModel, sendChecked, sendTry, allocReg, runFrames, upd, schedClosed, TIMEOUT_S]
  · simp only [timeoutHandler]
    split_ifs <;> simp_all [exnClass]


/-- C3 counterexample: a call whose ack wait consumes 20 units and whose
trigger wait consumes another 20 still succeeds, although
20 + 20 > TIMEOUT_S: the time consumed by the ack wait does not reduce
the budget of the trigger wait, refuting the single shared deadline
measured from call start. -/
theorem fresh_timeout_per_await_counterexample :
    (sendModel initTab "Page.navigate" none none (some tcE) schedC3).result
      = Except.ok ⟨some pE, some eE⟩ ∧
    TIMEOUT_S < schedC3.ackStep.t + schedC3.triggerStep.t ∧
    schedC3.ackStep.t ≤ TIMEOUT_S ∧ schedC3.triggerStep.t ≤ TIMEOUT_S :=
  ⟨rfl, by decide, by decide, by decide⟩

-- ===== runFrames invariants =====

theorem processFrame_trigger_pres (s : TabState) (f : Frame) (k : String) :
    (processFrame s f).1.trigger_events k = s.trigger_events k ∨
    (processFrame s f).1.trigger_events k = some true := by
  cases f with
  | event e =>
    simp only [processFrame]
    split <;> split
    all_goals
      first
        | exact Or.inl rfl
        | (simp only [upd]
           by_cases hk : k = hash_ e
           · simp [hk]
           · simp [hk])
  | ack p =>
    simp only [processFrame]; split <;> exact Or.inl rfl
  | undecodable => exact Or.inl rfl
  | empty => exact Or.inl rfl
  | nonMapping => exact Or.inl rfl
  | malformed => exact Or.inl rfl

theorem processFrame_trigger_origin (s : TabState) (f : Frame) (k : String) :
    (processFrame s f).1.trigger_events k = some true →
    s.trigger_events k = some true ∨ ∃ e, f = Frame.event e ∧ hash_ e = k := by
  cases f with
  | event e =>
    intro hk
    rcases processFrame_event_trigger_set s e k hk with h | h
    · exact Or.inl h
    · exact Or.inr ⟨e, rfl, h.symm⟩
  | ack p =>
    simp only [processFrame]; split <;> exact fun h => Or.inl h
  | undecodable => exact fun h => Or.inl h
  | empty => exact fun h => Or.inl h
  | nonMapping => exact fun h => Or.inl h
  | malformed => exact fun h => Or.inl h

theorem processFrame_cache_mono (s : TabState) (f : Frame) (k : String) :
    (s.event_payloads k).isSome → ((processFrame s f).1.event_payloads k).isSome := by
  cases f with
  | event e =>
    intro hk
    rw [processFrame_event_payloads_eq]
    simp only [upd]
    split
    · rfl
    · split
      · rfl
      · exact hk
  | ack p =>
    simp only [processFrame]; split <;> exact fun h => h
  | undecodable => exact fun h => h
  | empty => exact fun h => h
  | nonMapping => exact fun h => h
  | malformed => exact fun h => h

theorem processFrame_ack_inv (s : TabState) (f : Frame) (id_ : Nat)
    (hP : s.ack_events id_ = some true → (s.ack_payloads id_).isSome) :
    (processFrame s f).1.ack_events id_ = some true →
      ((processFrame s f).1.ack_payloads id_).isSome := by
  cases f with
  | ack p =>
    simp only [processFrame]
    split <;> (intro hk; simp only [upd] at *)
    · by_cases hid : id_ = p.id_
      · simp [hid]
      · simp only [hid, if_false] at hk ⊢; exact hP hk
    · by_cases hid : id_ = p.id_
      · simp [hid]
      · simp only [hid, if_false] at hk ⊢; exact hP hk
  | event e =>
    simp only [processFrame]
    split <;> split <;> exact hP
  | undecodable => exact hP
  | empty => exact hP
  | nonMapping => exact hP
  | malformed => exact hP

theorem runFrames_ack_inv : ∀ (fs : List Frame) (s : TabState) (id_ : Nat),
    (s.ack_events id_ = some true → (s.ack_payloads id_).isSome) →
    (runFrames s fs).1.ack_events id_ = some true →
      ((runFrames s fs).1.ack_payloads id_).isSome
  | [], s, id_, hP => hP
  | f :: rest, s, id_, hP => by
    simp only [runFrames]
    rcases h : processFrame s f with ⟨s', oe⟩
    have hP' : s'.ack_events id_ = some true → (s'.ack_payloads id_).isSome := by
      have := processFrame_ack_inv s f id_ hP
      rw [h] at this; exact this
    cases oe with
    | none => exact runFrames_ack_inv rest s' id_ hP'
    | some ex => exact hP'

theorem runFrames_cache_mono : ∀ (fs : List Frame) (s : TabState) (k : String),
    (s.event_payloads k).isSome → ((runFrames s fs).1.event_payloads k).isSome
  | [], _, _, hk => hk
  | f :: rest, s, k, hk => by
    simp only [runFrames]
    rcases h : processFrame s f with ⟨s', oe⟩
    have hk' : (s'.event_payloads k).isSome := by
      have := processFrame_cache_mono s f k hk
      rw [h] at this; exact this
    cases oe with
    | none => exact runFrames_cache_mono rest s' k hk'
    | some ex => exact hk'

theorem runFrames_trigger_origin : ∀ (fs : List Frame) (s : TabState) (k : String),
    (runFrames s fs).1.trigger_events k = some true →
    s.trigger_events k = some true ∨ ∃ e, Frame.event e ∈ fs ∧ hash_ e = k
  | [], s, k => fun h => Or.inl h
  | f :: rest, s, k => by
    simp only [runFrames]
    rcases h : processFrame s f with ⟨s', oe⟩
    have horig : s'.trigger_events k = some true →
        s.trigger_events k = some true ∨ ∃ e, f = Frame.event e ∧ hash_ e = k := by
      have := processFrame_trigger_origin s f k
      rw [h] at this; exact this
    cases oe with
    | none =>
      intro hk
      rcases runFrames_trigger_origin rest s' k hk with h' | ⟨e, he, hh⟩
      · rcases horig h' with h'' | ⟨e, he, hh⟩
        · exact Or.inl h''
        · exact Or.inr ⟨e, by simp [he], hh⟩
      · exact Or.inr ⟨e, by simp [he], hh⟩
    | some ex =>
      intro hk
      rcases horig hk with h'' | ⟨e, he, hh⟩
      · exact Or.inl h''
      · exact Or.inr ⟨e, by simp [he], hh⟩

theorem runFrames_trigger_cached : ∀ (fs : List Frame) (s : TabState) (k : String),
    s.trigger_events k = some false →
    (runFrames s fs).1.trigger_events k = some true →
    ((runFrames s fs).1.event_payloads k).isSome
  | [], s, k => by
    intro h0 h1
    have h1' : s.trigger_events k = some true := h1
    rw [h0] at h1'
    simp at h1'
  | f :: rest, s, k => by
    intro h0 h1
    rcases h : processFrame s f with ⟨s', oe⟩
    rw [runFrames, h] at h1
    rw [runFrames, h]
    have hcache : ∀ e, f = Frame.event e → hash_ e = k → (s'.event_payloads k).isSome := by
      intro e he hh
      subst he
      have hpe : s'.event_payloads
          = upd (upd s.event_payloads (hash_ e) (some e)) e.js_name (some e) := by
        have hq := processFrame_event_payloads_eq s e
        rw [h] at hq
        exact hq
      rw [hpe]
      simp only [upd]
      split
      · rfl
      · rw [← hh]; simp
    have horig : s'.trigger_events k = some true →
        s.trigger_events k = some true ∨ ∃ e, f = Frame.event e ∧ hash_ e = k := by
      have := processFrame_trigger_origin s f k
      rw [h] at this; exact this
    cases oe with
    | none =>
      by_cases hf : s'.trigger_events k = some true
      · rcases horig hf with hcon | ⟨e, he, hh⟩
        · rw [h0] at hcon; exact absurd hcon (by simp)
        · exact runFrames_cache_mono rest s' k (hcache e he hh)
      · have hpres := processFrame_trigger_pres s f k
        rw [h] at hpres
        rcases hpres with hsame | htrue
        · exact runFrames_trigger_cached rest s' k (by rw [hsame, h0]) h1
        · exact absurd htrue hf
    | some ex =>
      rcases horig h1 with hcon | ⟨e, he, hh⟩
      · rw [h0] at hcon; exact absurd hcon (by simp)
      · exact hcache e he hh

-- ===== phase lemmas =====

theorem triggerPhase_ok (s : TabState) (m : String) (id_ : Nat) (tc : EventCls)
    (hid : List (String × String)) (sched : SendSched) (s3 : TabState)
    (tr3 : List AwaitPt) (ev : Option CWEvent)
    (hok : triggerPhase s m id_ tc hid sched = (s3, tr3, Except.ok ev)) :
    ev.isSome ∧
    (tr3 = [] ∨ (tr3 = [AwaitPt.trigger] ∧ sched.triggerStep.t ≤ TIMEOUT_S)) ∧
    ∃ h, build_hash tc (hid.filter fun kv => tc.hashable.contains kv.1) = Except.ok h ∧
      ((s.event_payloads h).isSome ∨
        ∃ e, Frame.event e ∈ sched.triggerStep.frames ∧ hash_ e = h) := by
  simp only [triggerPhase] at hok
  split at hok
  next ex heq => simp at hok
  next h heq =>
    split at hok
    next ev0 hc =>
      simp only [Prod.mk.injEq, Except.ok.injEq] at hok
      obtain ⟨-, htr, hv⟩ := hok
      exact ⟨by rw [← hv]; rfl, Or.inl htr.symm, h, heq, Or.inl (by rw [hc]; rfl)⟩
    next hc =>
      split at hok
      next hcnd =>
        simp only [Prod.mk.injEq, Except.ok.injEq] at hok
        obtain ⟨-, htr, hv⟩ := hok
        have hreg : ({ s with trigger_events := upd s.trigger_events h (some false)
            } : TabState).trigger_events h = some false := by
          simp [upd]
        have hcached := runFrames_trigger_cached sched.triggerStep.frames
          { s with trigger_events := upd s.trigger_events h (some false) } h hreg hcnd.1
        have horig := runFrames_trigger_origin sched.triggerStep.frames
          { s with trigger_events := upd s.trigger_events h (some false) } h hcnd.1
        refine ⟨by rw [← hv]; exact hcached, Or.inr ⟨htr.symm, hcnd.2⟩, h, heq, ?_⟩
        rcases horig with hcon | harr
        · rw [hreg] at hcon; simp at hcon
        · exact Or.inr harr
      next hcnd => simp at hok

theorem inputPhase_ok_shape (s : TabState) (m : String) (id_ : Nat)
    (icls : Option EventCls) (ares : List (String × String)) (sched : SendSched)
    (s2 : TabState) (tr2 : List AwaitPt) (hid : List (String × String))
    (hok : inputPhase s m id_ icls ares sched = (s2, tr2, Except.ok hid)) :
    tr2 = [] ∨ (tr2 = [AwaitPt.input] ∧ sched.inputStep.t ≤ TIMEOUT_S) := by
  cases icls with
  | none =>
    simp only [inputPhase, Prod.mk.injEq] at hok
    exact Or.inl hok.2.1.symm
  | some ic =>
    simp only [inputPhase] at hok
    split at hok
    next ev hc =>
      split at hok
      next l hd =>
        simp only [Prod.mk.injEq] at hok
        exact Or.inl hok.2.1.symm
      next ex hd => simp at hok
    next hc =>
      split at hok
      next hcnd =>
        split at hok
        next ev hc2 =>
          split at hok
          next l hd =>
            simp only [Prod.mk.injEq] at hok
            exact Or.inr ⟨hok.2.1.symm, hcnd.2⟩
          next ex hd => simp at hok
        next hc2 => simp at hok
      next hcnd => simp at hok

-- ===== sendModel dissection =====

theorem allocReg_ack (s0 : TabState) (icls : Option EventCls) :
    (allocReg s0 icls).ack_events (s0.message_id + 1) = some false := by
  cases icls <;> simp [allocReg, upd]

theorem sendModel_ok_elim (s0 : TabState) (m : String) (v : Validator)
    (icls tcls : Option EventCls) (sched : SendSched) (r : SendResult)
    (hok : (sendModel s0 m v icls tcls sched).result = Except.ok r) :
    sched.sendStep.t ≤ TIMEOUT_S ∧ sched.ackStep.t ≤ TIMEOUT_S ∧
    (ackPoint s0 icls sched).ack_events (s0.message_id + 1) = some true ∧
    sendModel s0 m v icls tcls sched
      = afterAck (ackPoint s0 icls sched) m (s0.message_id + 1) v icls tcls sched
          [AwaitPt.send, AwaitPt.ack] := by
  have main : ∀ (s : TabState),
      (sendTry s m (s0.message_id + 1) v icls tcls sched).result = Except.ok r →
      sched.sendStep.t ≤ TIMEOUT_S ∧ sched.ackStep.t ≤ TIMEOUT_S ∧
      (runFrames (runFrames s sched.sendStep.frames).1 sched.ackStep.frames).1.ack_events
          (s0.message_id + 1) = some true ∧
      sendTry s m (s0.message_id + 1) v icls tcls sched
        = afterAck (runFrames (runFrames s sched.sendStep.frames).1 sched.ackStep.frames).1
            m (s0.message_id + 1) v icls tcls sched [AwaitPt.send, AwaitPt.ack] := by
    intro s htry
    simp only [sendTry] at htry ⊢
    split at htry
    next hs =>
      split at htry
      next hcnd =>
        rw [if_pos hs, if_pos hcnd]
        exact ⟨hs, hcnd.2, hcnd.1, rfl⟩
      next hcnd => simp at htry
    next hs => simp at htry
  cases icls with
  | none =>
    cases tcls with
    | none =>
      simp only [sendModel, sendChecked] at hok ⊢
      have := main (allocReg s0 none) hok
      exact ⟨this.1, this.2.1, this.2.2.1, this.2.2.2⟩
    | some tc =>
      simp only [sendModel, sendChecked] at hok ⊢
      split at hok
      next hie => simp at hok
      next hie =>
        rw [if_neg hie]
        have := main (allocReg s0 none) hok
        exact ⟨this.1, this.2.1, this.2.2.1, this.2.2.2⟩
  | some ic =>
    cases tcls with
    | none =>
      simp only [sendModel, sendChecked] at hok ⊢
      split at hok
      next hie => simp at hok
      next hie =>
        rw [if_neg hie]
        have := main (allocReg s0 (some ic)) hok
        exact ⟨this.1, this.2.1, this.2.2.1, this.2.2.2⟩
    | some tc =>
      simp only [sendModel, sendChecked] at hok ⊢
      split at hok
      next hie => simp at hok
      next hie =>
        split at hok
        next hte => simp at hok
        next hte =>
          rw [if_neg hie, if_neg hte]
          have := main (allocReg s0 (some ic)) hok
          exact ⟨this.1, this.2.1, this.2.2.1, this.2.2.2⟩

theorem afterAck_ok_shape (s : TabState) (m : String) (id_ : Nat) (v : Validator)
    (icls tcls : Option EventCls) (sched : SendSched) (tr : List AwaitPt)
    (r : SendResult)
    (hok : (afterAck s m id_ v icls tcls sched tr).result = Except.ok r) :
    ∃ tr2 tr3,
      (afterAck s m id_ v icls tcls sched tr).awaits = tr ++ (tr2 ++ tr3) ∧
      (tr2 = [] ∨ (tr2 = [AwaitPt.input] ∧ sched.inputStep.t ≤ TIMEOUT_S)) ∧
      (tr3 = [] ∨ (tr3 = [AwaitPt.trigger] ∧ sched.triggerStep.t ≤ TIMEOUT_S)) := by
  simp only [afterAck] at hok ⊢
  split at hok
  next hp =>
    exact ⟨[], [], by simp [hp], Or.inl rfl, Or.inl rfl⟩
  next p hp =>
    split at hok
    next ce herr => simp at hok
    next herr =>
      split at hok
      next hres => simp at hok
      next r0 hres =>
        split at hok
        next ex hv => simp at hok
        next ackRes hv =>
          rw [hp, herr] at *
          split at hok
          next s2 tr2 ex hip => simp at hok
          next s2 tr2 hid hip =>
            have h2 := inputPhase_ok_shape _ _ _ _ _ _ _ _ _ hip
            split at hok
            next =>
              exact ⟨tr2, [], by simp, h2, Or.inl rfl⟩
            next tc =>
              split at hok
              next s3 tr3 ex htp => simp at hok
              next s3 tr3 ev htp =>
                have h3 := (triggerPhase_ok _ _ _ _ _ _ _ _ _ htp).2.1
                exact ⟨tr2, tr3, by simp, h2, h3⟩

/-- C3 amended: each await of `_send` is bounded by its own fresh
`TIMEOUT_S` budget: a call that returns successfully had every await it
actually performed bounded by `TIMEOUT_S` individually, with no shared
overall deadline. -/
theorem await_budgets_are_per_step (s0 : TabState) (m : String) (v : Validator)
    (icls tcls : Option EventCls) (sched : SendSched) (r : SendResult)
    (hok : (sendModel s0 m v icls tcls sched).result = Except.ok r) :
    sched.sendStep.t ≤ TIMEOUT_S ∧ sched.ackStep.t ≤ TIMEOUT_S ∧
    (AwaitPt.input ∈ (sendModel s0 m v icls tcls sched).awaits →
      sched.inputStep.t ≤ TIMEOUT_S) ∧
    (AwaitPt.trigger ∈ (sendModel s0 m v icls tcls sched).awaits →
      sched.triggerStep.t ≤ TIMEOUT_S) := by
  obtain ⟨h1, h2, hflag, heq⟩ := sendModel_ok_elim s0 m v icls tcls sched r hok
  rw [heq] at hok ⊢
  obtain ⟨tr2, tr3, haw, hi, ht⟩ := afterAck_ok_shape _ _ _ _ _ _ _ _ _ hok
  rw [haw]
  refine ⟨h1, h2, ?_, ?_⟩
  · intro hmem
    rcases hi with rfl | ⟨rfl, hb⟩
    · rcases ht with rfl | ⟨rfl, hb⟩ <;> simp at hmem
    · exact hb
  · intro hmem
    rcases ht with rfl | ⟨rfl, hb⟩
    · rcases hi with rfl | ⟨rfl, hb⟩ <;> simp at hmem
    · exact hb

theorem await_budgets_are_per_step_witness :
    ((sendModel initTab "Page.navigate" none none (some tcE) schedC3).result
      = Except.ok ⟨some pE, some eE⟩) ∧
    (schedC3.sendStep.t ≤ TIMEOUT_S ∧ schedC3.ackStep.t ≤ TIMEOUT_S ∧
      (AwaitPt.input ∈ (sendModel initTab "Page.navigate" none none (some tcE) schedC3).awaits →
        schedC3.inputStep.t ≤ TIMEOUT_S) ∧
      (AwaitPt.trigger ∈ (sendModel initTab "Page.navigate" none none (some tcE) schedC3).awaits →
        schedC3.triggerStep.t ≤ TIMEOUT_S)) :=
  ⟨rfl, await_budgets_are_per_step initTab "Page.navigate" none none (some tcE) schedC3
    ⟨some pE, some eE⟩ rfl⟩

-- C5 reduction lemma
theorem sendModel_reduces (s0 : TabState) (m : String) (v : Validator)
    (icls tcls : Option EventCls) (sched : SendSched)
    (hic : ∀ ic, icls = some ic → ic.hashable.isEmpty = false)
    (htc : ∀ tc, tcls = some tc → tc.hashable.isEmpty = false)
    (h1 : sched.sendStep.t ≤ TIMEOUT_S)
    (h2 : sched.ackStep.t ≤ TIMEOUT_S)
    (hflag : (ackPoint s0 icls sched).ack_events (s0.message_id + 1) = some true) :
    sendModel s0 m v icls tcls sched
      = afterAck (ackPoint s0 icls sched) m (s0.message_id + 1) v icls tcls sched
          [AwaitPt.send, AwaitPt.ack] := by
  have main : ∀ (s : TabState),
      (runFrames (runFrames s sched.sendStep.frames).1 sched.ackStep.frames).1.ack_events
          (s0.message_id + 1) = some true →
      sendTry s m (s0.message_id + 1) v icls tcls sched
        = afterAck (runFrames (runFrames s sched.sendStep.frames).1 sched.ackStep.frames).1
            m (s0.message_id + 1) v icls tcls sched [AwaitPt.send, AwaitPt.ack] := by
    intro s hfl
    simp only [sendTry]
    rw [if_pos h1, if_pos (⟨hfl, h2⟩ :
      (runFrames (runFrames s sched.sendStep.frames).1 sched.ackStep.frames).1.ack_events
          (s0.message_id + 1) = some true ∧ sched.ackStep.t ≤ TIMEOUT_S)]
  cases icls with
  | none =>
    cases tcls with
    | none =>
      simp only [sendModel, sendChecked]
      exact main (allocReg s0 none) hflag
    | some tc =>
      simp only [sendModel, sendChecked]
      rw [if_neg (by rw [htc tc rfl]; simp)]
      exact main (allocReg s0 none) hflag
  | some ic =>
    cases tcls with
    | none =>
      simp only [sendModel, sendChecked]
      rw [if_neg (by rw [hic ic rfl]; simp)]
      exact main (allocReg s0 (some ic)) hflag
    | some tc =>
      simp only [sendModel, sendChecked]
      rw [if_neg (by rw [hic ic rfl]; simp), if_neg (by rw [htc tc rfl]; simp)]
      exact main (allocReg s0 (some ic)) hflag

/-- C5: an invoke call whose Ack Frame carries an `error` field fails with
`ProtocolError` carrying the remote code and message, and performs no
input-event or trigger-event wait after observing the error: the awaits
performed are exactly the send and the ack wait. -/
theorem ack_error_fails_protocol_error (s0 : TabState) (m : String) (v : Validator)
    (icls tcls : Option EventCls) (sched : SendSched) (p : AckPayload)
    (ce : Int × String)
    (hic : ∀ ic, icls = some ic → ic.hashable.isEmpty = false)
    (htc : ∀ tc, tcls = some tc → tc.hashable.isEmpty = false)
    (h1 : sched.sendStep.t ≤ TIMEOUT_S)
    (h2 : sched.ackStep.t ≤ TIMEOUT_S)
    (hflag : (ackPoint s0 icls sched).ack_events (s0.message_id + 1) = some true)
    (hp : (ackPoint s0 icls sched).ack_payloads (s0.message_id + 1) = some p)
    (herr : p.error = some ce) :
    (sendModel s0 m v icls tcls sched).result
      = Except.error (PyExn.protocolError
          (ce.2 ++ ", code " ++ toString ce.1 ++ " for id=" ++ toString (s0.message_id + 1))) ∧
    (sendModel s0 m v icls tcls sched).awaits = [AwaitPt.send, AwaitPt.ack] := by
  rw [sendModel_reduces s0 m v icls tcls sched hic htc h1 h2 hflag]
  simp [afterAck, hp, herr]


theorem ack_error_fails_protocol_error_witness :
    ((ackPoint initTab none schedErr).ack_events 1 = some true ∧
     (ackPoint initTab none schedErr).ack_payloads 1 = some pErr ∧
     pErr.error = some ((-32000 : Int), "Cannot navigate")) ∧
    ((sendModel initTab "Page.navigate" none none none schedErr).result
        = Except.error (PyExn.protocolError
            ("Cannot navigate" ++ ", code " ++ toString (-32000 : Int)
              ++ " for id=" ++ toString (1 : Nat))) ∧
     (sendModel initTab "Page.navigate" none none none schedErr).awaits
        = [AwaitPt.send, AwaitPt.ack]) :=
  ⟨⟨rfl, rfl, rfl⟩,
    ack_error_fails_protocol_error initTab "Page.navigate" none none none schedErr
      pErr ((-32000 : Int), "Cannot navigate")
      (fun ic h => by cases h) (fun tc h => by cases h)
      (by decide) (by decide) rfl rfl rfl⟩

/-- C1: an invoke call supplied with a trigger-event class that returns
successfully resolved through the code's own chain: the ack payload cached
for this call's id carried no error, its (validated) `result` fed the
input phase, which produced the hash-input dict `hid`; `build_hash`
applied to `hid` restricted to the trigger class's hashable fields gave
the hash `h`; and the returned event — always present — came from the
trigger phase at the pre-trigger state `s2`, where either an Event Frame
was already cached under `h` or an Event Frame whose hash is exactly `h`
was processed by the receive loop during this call's trigger wait.  The
ack alone never resolves the call. -/
theorem trigger_wait_needs_matching_event (s0 : TabState) (m : String)
    (v : Validator) (icls : Option EventCls) (tc : EventCls) (sched : SendSched)
    (r : SendResult)
    (hok : (sendModel s0 m v icls (some tc) sched).result = Except.ok r) :
    r.event.isSome ∧
    ∃ (p : AckPayload) (r0 ackRes : List (String × String)) (s2 : TabState)
      (tr2 : List AwaitPt) (hid : List (String × String)) (s3 : TabState)
      (tr3 : List AwaitPt) (h : String),
      (ackPoint s0 icls sched).ack_payloads (s0.message_id + 1) = some p ∧
      p.error = none ∧
      p.result = some r0 ∧
      applyValidator v r0 = Except.ok ackRes ∧
      inputPhase (validatedState (ackPoint s0 icls sched) (s0.message_id + 1) p ackRes)
          m (s0.message_id + 1) icls ackRes sched = (s2, tr2, Except.ok hid) ∧
      triggerPhase s2 m (s0.message_id + 1) tc hid sched = (s3, tr3, Except.ok r.event) ∧
      r.ack = some { p with result := some ackRes } ∧
      build_hash tc (hid.filter fun kv => tc.hashable.contains kv.1) = Except.ok h ∧
      ((s2.event_payloads h).isSome ∨
        ∃ e, Frame.event e ∈ sched.triggerStep.frames ∧ hash_ e = h) := by
  obtain ⟨h1, h2, hflag, heq⟩ := sendModel_ok_elim s0 m v icls (some tc) sched r hok
  rw [heq] at hok
  have hbase : (allocReg s0 icls).ack_events (s0.message_id + 1) = some true →
      ((allocReg s0 icls).ack_payloads (s0.message_id + 1)).isSome := by
    intro hcon
    rw [allocReg_ack] at hcon
    simp at hcon
  have hpay : ((ackPoint s0 icls sched).ack_payloads (s0.message_id + 1)).isSome :=
    runFrames_ack_inv sched.ackStep.frames _ _
      (runFrames_ack_inv sched.sendStep.frames _ _ hbase) hflag
  obtain ⟨p, hp⟩ := Option.isSome_iff_exists.mp hpay
  simp only [afterAck, hp] at hok
  split at hok
  next ce herr => simp at hok
  next herr =>
    split at hok
    next hres => simp at hok
    next r0 hres =>
      split at hok
      next ex hv => simp at hok
      next ackRes hv =>
        split at hok
        next s2 tr2 ex hip => simp at hok
        next s2 tr2 hid hip =>
          split at hok
          next s3 tr3 ex htp => simp at hok
          next s3 tr3 ev htp =>
            obtain ⟨hevs, -, h, hb, hdisj⟩ := triggerPhase_ok _ _ _ _ _ _ _ _ _ htp
            simp only [Except.ok.injEq] at hok
            subst hok
            exact ⟨hevs, p, r0, ackRes, s2, tr2, hid, s3, tr3, h,
              hp, herr, hres, hv, hip, htp, rfl, hb, hdisj⟩

/-- Concrete run for the C1 witness: the ack frame carries
`result = [("frameId","F1")]`, the trigger class hashes on `frameId`, and
the matching `Page.frameStoppedLoading` event frame arrives during the
trigger wait. -/
theorem trigger_wait_needs_matching_event_witness :
    ((sendModel initTab "Page.navigate" none none (some tcE) schedC1).result
      = Except.ok ⟨some pE, some eE⟩) ∧
    ((⟨some pE, some eE⟩ : SendResult).event.isSome ∧
      ∃ (p : AckPayload) (r0 ackRes : List (String × String)) (s2 : TabState)
        (tr2 : List AwaitPt) (hid : List (String × String)) (s3 : TabState)
        (tr3 : List AwaitPt) (h : String),
        (ackPoint initTab none schedC1).ack_payloads 1 = some p ∧
        p.error = none ∧
        p.result = some r0 ∧
        applyValidator none r0 = Except.ok ackRes ∧
        inputPhase (validatedState (ackPoint initTab none schedC1) 1 p ackRes)
            "Page.navigate" 1 none ackRes schedC1 = (s2, tr2, Except.ok hid) ∧
        triggerPhase s2 "Page.navigate" 1 tcE hid schedC1
          = (s3, tr3, Except.ok (⟨some pE, some eE⟩ : SendResult).event) ∧
        (⟨some pE, some eE⟩ : SendResult).ack = some { p with result := some ackRes } ∧
        build_hash tcE (hid.filter fun kv => tcE.hashable.contains kv.1) = Except.ok h ∧
        ((s2.event_payloads h).isSome ∨
          ∃ e, Frame.event e ∈ schedC1.triggerStep.frames ∧ hash_ e = h)) :=
  ⟨rfl, trigger_wait_needs_matching_event initTab "Page.navigate" none none tcE
    schedC1 ⟨some pE, some eE⟩ rfl⟩

-- ===== C8: command ids =====

theorem processFrame_message_id (s : TabState) (f : Frame) :
    (processFrame s f).1.message_id = s.message_id := by
  cases f with
  | event e => simp only [processFrame]; split <;> split <;> rfl
  | ack p => simp only [processFrame]; split <;> rfl
  | undecodable => rfl
  | empty => rfl
  | nonMapping => rfl
  | malformed => rfl

theorem runFrames_message_id : ∀ (fs : List Frame) (s : TabState),
    (runFrames s fs).1.message_id = s.message_id
  | [], _ => rfl
  | f :: rest, s => by
    rcases h : processFrame s f with ⟨s', oe⟩
    have hm : s'.message_id = s.message_id := by
      have := processFrame_message_id s f
      rw [h] at this; exact this
    rw [runFrames, h]
    cases oe with
    | none => rw [← hm]; exact runFrames_message_id rest s'
    | some ex => exact hm

theorem inputPhase_message_id (s : TabState) (m : String) (id_ : Nat)
    (icls : Option EventCls) (ares : List (String × String)) (sched : SendSched) :
    (inputPhase s m id_ icls ares sched).1.message_id = s.message_id := by
  cases icls with
  | none => rfl
  | some ic =>
    simp only [inputPhase]
    split
    · split <;> rfl
    · split
      · split
        · split <;> exact runFrames_message_id sched.inputStep.frames s
        · exact runFrames_message_id sched.inputStep.frames s
      · exact runFrames_message_id sched.inputStep.frames s

theorem triggerPhase_message_id (s : TabState) (m : String) (id_ : Nat)
    (tc : EventCls) (hid : List (String × String)) (sched : SendSched) :
    (triggerPhase s m id_ tc hid sched).1.message_id = s.message_id := by
  simp only [triggerPhase]
  split
  · rfl
  · split
    · rfl
    · split <;> exact runFrames_message_id sched.triggerStep.frames _

theorem afterAck_message_id (s : TabState) (m : String) (id_ : Nat) (v : Validator)
    (icls tcls : Option EventCls) (sched : SendSched) (tr : List AwaitPt) :
    (afterAck s m id_ v icls tcls sched tr).state.message_id = s.message_id := by
  simp only [afterAck]
  split
  · rfl
  next p hp =>
    split
    · rfl
    next herr =>
      split
      · rfl
      next r0 hres =>
        split
        · rfl
        next ackRes hv =>
          split
          next s2 tr2 ex hip =>
            have h2 := inputPhase_message_id (validatedState s id_ p ackRes)
              m id_ icls ackRes sched
            rw [hip] at h2
            exact h2
          next s2 tr2 hid hip =>
            have h2 := inputPhase_message_id (validatedState s id_ p ackRes)
              m id_ icls ackRes sched
            rw [hip] at h2
            split
            · exact h2
            next tc =>
              split
              next s3 tr3 ex htp =>
                have h3 := triggerPhase_message_id s2 m id_ tc hid sched
                rw [htp] at h3
                exact h3.trans h2
              next s3 tr3 ev htp =>
                have h3 := triggerPhase_message_id s2 m id_ tc hid sched
                rw [htp] at h3
                exact h3.trans h2

theorem sendTry_message_id (s : TabState) (m : String) (id_ : Nat) (v : Validator)
    (icls tcls : Option EventCls) (sched : SendSched) :
    (sendTry s m id_ v icls tcls sched).state.message_id = s.message_id := by
  simp only [sendTry]
  split
  · split
    · rw [afterAck_message_id]
      rw [runFrames_message_id, runFrames_message_id]
    · rw [runFrames_message_id, runFrames_message_id]
  · exact runFrames_message_id sched.sendStep.frames s

theorem allocReg_message_id (s0 : TabState) (icls : Option EventCls) :
    (allocReg s0 icls).message_id = s0.message_id + 1 := by
  cases icls <;> rfl

theorem sendModel_message_id (s0 : TabState) (m : String) (v : Validator)
    (icls tcls : Option EventCls) (sched : SendSched) :
    (sendModel s0 m v icls tcls sched).state.message_id = s0.message_id + 1 := by
  cases icls with
  | none =>
    cases tcls with
    | none =>
      simp only [sendModel, sendChecked]
      rw [sendTry_message_id, allocReg_message_id]
    | some tc =>
      simp only [sendModel, sendChecked]
      split
      · rfl
      · rw [sendTry_message_id, allocReg_message_id]
  | some ic =>
    cases tcls with
    | none =>
      simp only [sendModel, sendChecked]
      split
      · rfl
      · rw [sendTry_message_id, allocReg_message_id]
    | some tc =>
      simp only [sendModel, sendChecked]
      split
      · rfl
      · split
        · rfl
        · rw [sendTry_message_id, allocReg_message_id]

theorem runCalls_ids : ∀ (calls : List CallSpec) (s : TabState),
    (runCalls s calls).2 = List.range' (s.message_id + 1) calls.length
  | [], _ => rfl
  | c :: rest, s => by
    simp only [runCalls, List.length_cons, List.range'_succ]
    rw [runCalls_ids rest _, sendModel_message_id]

-- C8
/-- C8: the command ids assigned by a sequence of invoke calls on one fresh
tab session are exactly 1, 2, ..., n: they start at 1, are strictly
increasing, and are never reused, whatever the outcome of each call. -/
theorem command_ids_strictly_increasing (calls : List CallSpec) :
    (runCalls initTab calls).2 = List.range' 1 calls.length ∧
    List.Chain' (fun a b => a < b) (runCalls initTab calls).2 := by
  have h := runCalls_ids calls initTab
  refine ⟨h, ?_⟩
  rw [h]
  cases hn : calls.length with
  | zero => simp
  | succ n =>
    rw [List.range'_succ]
    exact List.chain_lt_range' 1 n (by omega)
